import Mathlib

/-!
The display setup header `Setup_Custom_Ideaspark.h`

A verification development for the display configuration header
`BenchTesting/OtherProjects/WeighScale/ESP32/libraries/TFT_eSPI/User_Setups/Setup_Custom_Ideaspark.h`.

The header is pure data: nineteen lines of text. It is embedded verbatim, line by
line, and read by a small model of the C preprocessor (line comments, directives,
object-like and function-like `#define`, a macro environment with the
redefinition rule of C11 6.10.3).
-/

namespace IdeasparkSetup

/-! ## The source text -/

/-- The nineteen lines of `Setup_Custom_Ideaspark.h`, in order, without their
line terminators. Line 1 is empty. -/
def headerText : List String :=
  [ "",
    "#define ST7789_DRIVER",
    "#define TFT_WIDTH  135",
    "#define TFT_HEIGHT 240",
    "#define TFT_MOSI 23",
    "#define TFT_SCLK 18",
    "#define TFT_CS   15",
    "#define TFT_DC    2",
    "#define TFT_RST   4",
    "#define TFT_BL    32",
    "#define SPI_FREQUENCY 40000000",
    "",
    "// Make sure these fonts are enabled:",
    "#define LOAD_FONT2   // small text font (used for header)",
    "#define LOAD_FONT4   // medium",
    "#define LOAD_FONT6   // large",
    "#define LOAD_FONT7   // large 7-seg numeric font for value",
    "// Optional, only if you later want FreeFonts:",
    "#define LOAD_GFXFF" ]

/-! ## Lexical layer of the preprocessor model -/

/-- Horizontal white space inside a line. -/
def isBlankChar (c : Char) : Bool :=
  c = ' ' || c.toNat = 9

/-- Characters of a C identifier. -/
def isIdentChar (c : Char) : Bool :=
  c.isAlphanum || c = '_'

/-- Removes a `//` comment: everything from the first `//` to the end of line. -/
def stripLineComment : List Char → List Char
  | [] => []
  | [c] => [c]
  | c :: d :: rest =>
    if c = '/' ∧ d = '/' then [] else c :: stripLineComment (d :: rest)

/-- Splits a line at white space; `acc` holds the current word reversed. -/
def splitBlanks : List Char → List Char → List (List Char)
  | [], acc => if acc.isEmpty then [] else [acc.reverse]
  | c :: cs, acc =>
    if isBlankChar c then
      (if acc.isEmpty then splitBlanks cs [] else acc.reverse :: splitBlanks cs [])
    else splitBlanks cs (c :: acc)

/-- The white-space separated words of a line once its `//` comment is removed. -/
def lineWords (line : String) : List (List Char) :=
  splitBlanks (stripLineComment line.toList) []

/-- The longest identifier prefix of a word and what follows it. -/
def spanIdent : List Char → List Char × List Char
  | [] => ([], [])
  | c :: cs =>
    if isIdentChar c then ((spanIdent cs).1.cons c, (spanIdent cs).2) else ([], c :: cs)

/-- A macro definition: `params = none` for an object-like macro, `some ps` for a
function-like one; `body` is the replacement list, one string per token. -/
structure MacroDef where
  params : Option (List String)
  body : List String
  deriving DecidableEq

/-- What one line of the header is, to the preprocessor. -/
inductive Line where
  | blank
  | comment
  | define (name : String) (d : MacroDef)
  | directive (keyword : String)
  | text
  deriving DecidableEq

/-- Reads the operands of `#define`: the macro name, then either nothing or white
space and a replacement list (object-like), or an opening parenthesis glued to
the name (function-like; what follows the parenthesis is kept in `params` as
written and is not read further). -/
def parseDefine : List (List Char) → Line
  | [] => Line.directive "define"
  | w :: ws =>
    match spanIdent w with
    | ([], _) => Line.directive "define"
    | (n, []) => Line.define (String.mk n) ⟨none, ws.map String.mk⟩
    | (n, c :: rest) =>
      if c = '(' then
        Line.define (String.mk n) ⟨some ((String.mk rest) :: ws.map String.mk), []⟩
      else Line.directive "define"

/-- Dispatches on the directive keyword. -/
def parseDirective (keyword : List Char) (operands : List (List Char)) : Line :=
  if String.mk keyword = "define" then parseDefine operands
  else Line.directive (String.mk keyword)

/-- Classifies one line of source text. -/
def parseLine (line : String) : Line :=
  match lineWords line with
  | [] => if splitBlanks line.toList [] = [] then Line.blank else Line.comment
  | w :: ws =>
    match w with
    | [] => Line.text
    | c :: kw =>
      if c = '#' then
        (match kw, ws with
         | [], [] => Line.directive ""
         | [], k :: ops => parseDirective k ops
         | k, ops => parseDirective k ops)
      else Line.text

/-- The header, line by line, as the preprocessor sees it. -/
def headerLines : List Line :=
  headerText.map parseLine

/-! ## Integer constants -/

/-- Value of a run of decimal digits, most significant first; `acc` is the value
read so far. Fails on any other character. -/
def decimalDigits : List Char → Nat → Option Nat
  | [], acc => some acc
  | c :: cs, acc =>
    if c.isDigit then decimalDigits cs (10 * acc + (c.toNat - 48)) else none

/-- Value of a decimal integer constant: `0`, or a non-zero digit followed by
digits, with an optional leading minus sign. Octal, hexadecimal and suffixed
constants are not read. -/
def intConstant (tok : String) : Option Int :=
  match tok.toList with
  | [] => none
  | [c] => (decimalDigits [c] 0).map Int.ofNat
  | c :: d :: rest =>
    if c = '-' then
      (if d = '0' then none else (decimalDigits (d :: rest) 0).map fun n => - Int.ofNat n)
    else if c = '0' then none
    else (decimalDigits (c :: d :: rest) 0).map Int.ofNat

/-! ## Macro environment -/

/-- A macro environment: the definitions in effect, oldest first. The first
entry for a name is the one in effect. -/
abbrev Env := List (String × MacroDef)

/-- The definition of `n` in effect, if any. -/
def Env.find : Env → String → Option MacroDef
  | [], _ => none
  | (m, d) :: rest, n => if m = n then some d else Env.find rest n

/-- Makes `d` the definition of `n`: replaces the entry in effect, or appends. -/
def Env.bind : Env → String → MacroDef → Env
  | [], n, d => [(n, d)]
  | (m, e) :: rest, n, d =>
    if m = n then (n, d) :: rest else (m, e) :: Env.bind rest n d

/-- What the preprocessor reports while reading lines. -/
inductive Diagnostic where
  | redefined (name : String)
  | unsupported (line : Line)
  deriving DecidableEq

/-- State of the preprocessor between two lines. -/
structure PPState where
  macros : Env
  diagnostics : List Diagnostic
  deriving DecidableEq

/-- State of a translation unit in which nothing is defined yet. -/
def PPState.initial : PPState := ⟨[], []⟩

/-- Effect of `#define n d` (C11 6.10.3p2): a first definition is recorded; a
redefinition identical to the one in effect changes nothing; a differing
redefinition is reported and, as compilers do, takes effect. -/
def defineMacro (n : String) (d : MacroDef) (st : PPState) : PPState :=
  match st.macros.find n with
  | none => ⟨st.macros.bind n d, st.diagnostics⟩
  | some e =>
    if e = d then st
    else ⟨st.macros.bind n d, st.diagnostics ++ [Diagnostic.redefined n]⟩

/-- Effect of one line. Anything but a blank line, a comment or a `#define` is
outside the model and is reported. -/
def stepLine (st : PPState) : Line → PPState
  | Line.blank => st
  | Line.comment => st
  | Line.define n d => defineMacro n d st
  | l => ⟨st.macros, st.diagnostics ++ [Diagnostic.unsupported l]⟩

/-- Effect of a sequence of lines, first to last. -/
def includeLines (ls : List Line) (st : PPState) : PPState :=
  ls.foldl stepLine st

/-- Effect of `#include "Setup_Custom_Ideaspark.h"` on a preprocessor state. -/
def includeHeader (st : PPState) : PPState :=
  includeLines headerLines st

/-- The `#define` directives of a sequence of lines, in order. -/
def definesOf : List Line → Env
  | [] => []
  | Line.define n d :: rest => (n, d) :: definesOf rest
  | _ :: rest => definesOf rest

/-- The `#define` directives of the header, in order. -/
def headerDefines : Env :=
  definesOf headerLines

/-- The macro names the header defines, in order of definition. -/
def headerNames : List String :=
  headerDefines.map Prod.fst

/-- Integer value of an object-like macro whose replacement list is a single
integer constant. -/
def macroValue (env : Env) (n : String) : Option Int :=
  match env.find n with
  | some ⟨none, [tok]⟩ => intConstant tok
  | _ => none

/-- Whether `n` is defined. -/
def isDefined (env : Env) (n : String) : Bool :=
  (env.find n).isSome

/-- The configuration a translation unit sees when the header is the first
thing it includes. -/
def config : Env :=
  (includeHeader PPState.initial).macros

def TFT_WIDTH : Option Int := macroValue config "TFT_WIDTH"
def TFT_HEIGHT : Option Int := macroValue config "TFT_HEIGHT"
def TFT_MOSI : Option Int := macroValue config "TFT_MOSI"
def TFT_SCLK : Option Int := macroValue config "TFT_SCLK"
def TFT_CS : Option Int := macroValue config "TFT_CS"
def TFT_DC : Option Int := macroValue config "TFT_DC"
def TFT_RST : Option Int := macroValue config "TFT_RST"
def TFT_BL : Option Int := macroValue config "TFT_BL"
def SPI_FREQUENCY : Option Int := macroValue config "SPI_FREQUENCY"

/-- Display size addressed by the driver: width and height in pixels. -/
def framebuffer : Option (Int × Int) :=
  match TFT_WIDTH, TFT_HEIGHT with
  | some w, some h => some (w, h)
  | _, _ => none

/-- The six pin macros of the header. -/
def pinNames : List String :=
  ["TFT_MOSI", "TFT_SCLK", "TFT_CS", "TFT_DC", "TFT_RST", "TFT_BL"]

/-- The last definition a sequence of directives gives to `n`, if any. -/
def lastBinding : Env → String → Option MacroDef
  | [], _ => none
  | (m, d) :: rest, n =>
    match lastBinding rest n with
    | some e => some e
    | none => if m = n then some d else none

/-- Lines the model executes without a report of its own: blank lines, comments
and `#define`. -/
def Line.silent : Line → Bool
  | Line.blank => true
  | Line.comment => true
  | Line.define _ _ => true
  | _ => false

/-- Lines that are blank, a comment, or the definition of an object-like macro. -/
def Line.plainData : Line → Bool
  | Line.blank => true
  | Line.comment => true
  | Line.define _ d => d.params.isNone
  | _ => false

/-! ## Environment of use, as the specification describes it

The driver library and the target board are not part of the repository; the
facts about them below are the ones the specification states. -/

/-- Modelled from the spec: the driver selector is the macro that chooses the
controller chip family. The driver library is not in the repository; it spells
its selectors `<chip>_DRIVER`, and a name with that ending counts as one. -/
def isDriverSelector (n : String) : Bool :=
  "_DRIVER".toList.isSuffixOf n.toList && "_DRIVER".length < n.length

/-- Modelled from the spec: the font flags the driver library looks at. -/
def fontFlags : List String :=
  ["LOAD_GLCD", "LOAD_FONT2", "LOAD_FONT4", "LOAD_FONT6", "LOAD_FONT7", "LOAD_FONT8",
   "LOAD_FONT8N", "LOAD_GFXFF", "SMOOTH_FONT"]

/-- Modelled from the spec: the valid pin range of the target controller. The
target is the ESP32 of the file's path, whose GPIOs are numbered 0 to 39. -/
def esp32Gpio (v : Int) : Bool :=
  0 ≤ v && v ≤ 39

/-- Modelled from the spec: GPIOs 34 to 39 of the ESP32 are input-only. -/
def esp32InputOnly (v : Int) : Bool :=
  34 ≤ v && v ≤ 39

/-- A pin number the ESP32 can drive as an output. -/
def esp32OutputCapable (v : Int) : Bool :=
  esp32Gpio v && !esp32InputOnly v

/-- Modelled from the spec: the display RAM of the ST7789 holds 240 columns by
320 rows; `(x, y)` is addressable when it falls inside. -/
def st7789Addressable (x y : Int) : Bool :=
  0 ≤ x && x < 240 && 0 ≤ y && y < 320

/-! ## Evaluation of the header -/

theorem headerLines_eq :
    headerLines =
      [ Line.blank,
        Line.define "ST7789_DRIVER" ⟨none, []⟩,
        Line.define "TFT_WIDTH" ⟨none, ["135"]⟩,
        Line.define "TFT_HEIGHT" ⟨none, ["240"]⟩,
        Line.define "TFT_MOSI" ⟨none, ["23"]⟩,
        Line.define "TFT_SCLK" ⟨none, ["18"]⟩,
        Line.define "TFT_CS" ⟨none, ["15"]⟩,
        Line.define "TFT_DC" ⟨none, ["2"]⟩,
        Line.define "TFT_RST" ⟨none, ["4"]⟩,
        Line.define "TFT_BL" ⟨none, ["32"]⟩,
        Line.define "SPI_FREQUENCY" ⟨none, ["40000000"]⟩,
        Line.blank,
        Line.comment,
        Line.define "LOAD_FONT2" ⟨none, []⟩,
        Line.define "LOAD_FONT4" ⟨none, []⟩,
        Line.define "LOAD_FONT6" ⟨none, []⟩,
        Line.define "LOAD_FONT7" ⟨none, []⟩,
        Line.comment,
        Line.define "LOAD_GFXFF" ⟨none, []⟩ ] := by
  decide

theorem headerDefines_eq :
    headerDefines =
      [ ("ST7789_DRIVER", ⟨none, []⟩),
        ("TFT_WIDTH", ⟨none, ["135"]⟩),
        ("TFT_HEIGHT", ⟨none, ["240"]⟩),
        ("TFT_MOSI", ⟨none, ["23"]⟩),
        ("TFT_SCLK", ⟨none, ["18"]⟩),
        ("TFT_CS", ⟨none, ["15"]⟩),
        ("TFT_DC", ⟨none, ["2"]⟩),
        ("TFT_RST", ⟨none, ["4"]⟩),
        ("TFT_BL", ⟨none, ["32"]⟩),
        ("SPI_FREQUENCY", ⟨none, ["40000000"]⟩),
        ("LOAD_FONT2", ⟨none, []⟩),
        ("LOAD_FONT4", ⟨none, []⟩),
        ("LOAD_FONT6", ⟨none, []⟩),
        ("LOAD_FONT7", ⟨none, []⟩),
        ("LOAD_GFXFF", ⟨none, []⟩) ] := by
  decide

/-- The classifier tells the other directives, function-like macros and plain
source text apart from object-like definitions. -/
theorem parseLine_samples :
    parseLine "#ifdef ESP32" = Line.directive "ifdef" ∧
    parseLine "#if 1" = Line.directive "if" ∧
    parseLine "#ifndef X" = Line.directive "ifndef" ∧
    parseLine "#else" = Line.directive "else" ∧
    parseLine "#endif // X" = Line.directive "endif" ∧
    parseLine "#undef TFT_BL" = Line.directive "undef" ∧
    parseLine "#include <SPI.h>" = Line.directive "include" ∧
    parseLine "  # define A 1 2" = Line.define "A" ⟨none, ["1", "2"]⟩ ∧
    parseLine "#define F(x) x" = Line.define "F" ⟨some ["x)", "x"], []⟩ ∧
    parseLine "int x;" = Line.text ∧
    parseLine "   " = Line.blank ∧
    parseLine "  // note" = Line.comment := by
  decide

/-- No line of the header uses a construct the lexical layer does not read: no
line splicing, block comment, string or character literal, or trigraph. -/
theorem headerText_plain :
    ∀ l ∈ headerText, ∀ c ∈ l.toList,
      c.toNat ≠ 92 ∧ c.toNat ≠ 42 ∧ c.toNat ≠ 34 ∧ c.toNat ≠ 39 ∧ c.toNat ≠ 63 := by
  decide

/-! ## The macro environment under `#define` -/

theorem Env.find_bind (env : Env) (n m : String) (d : MacroDef) :
    (env.bind n d).find m = if n = m then some d else env.find m := by
  induction env with
  | nil => simp [Env.bind, Env.find]
  | cons p rest ih =>
    obtain ⟨k, e⟩ := p
    by_cases hk : k = n
    · subst hk
      by_cases hm : k = m <;> simp [Env.bind, Env.find, hm]
    · by_cases hm : k = m
      · subst hm
        have hne : ¬ n = k := fun h => hk h.symm
        simp [Env.bind, Env.find, hk, hne]
      · simp [Env.bind, Env.find, hk, hm, ih]

theorem defineMacro_find (n m : String) (d : MacroDef) (st : PPState) :
    (defineMacro n d st).macros.find m = if n = m then some d else st.macros.find m := by
  unfold defineMacro
  cases hf : st.macros.find n with
  | none => simp [Env.find_bind]
  | some e =>
    by_cases he : e = d
    · subst he
      by_cases hm : n = m
      · subst hm
        simp [hf]
      · simp [hm]
    · simp [he, Env.find_bind]

theorem defineMacro_same (n : String) (d : MacroDef) (st : PPState)
    (h : st.macros.find n = some d) : defineMacro n d st = st := by
  unfold defineMacro
  simp [h]

theorem includeLines_cons (l : Line) (ls : List Line) (st : PPState) :
    includeLines (l :: ls) st = includeLines ls (stepLine st l) := rfl

/-- After a sequence of lines a name has the last definition the lines give it,
or else the definition it had before. -/
theorem includeLines_find (ls : List Line) (st : PPState) (m : String) :
    (includeLines ls st).macros.find m =
      match lastBinding (definesOf ls) m with
      | some d => some d
      | none => st.macros.find m := by
  induction ls generalizing st with
  | nil => simp [includeLines, definesOf, lastBinding]
  | cons l ls ih =>
    rw [includeLines_cons, ih]
    cases l with
    | define n d =>
      simp only [definesOf, lastBinding, stepLine, defineMacro_find]
      cases lastBinding (definesOf ls) m with
      | some e => rfl
      | none => by_cases hm : n = m <;> simp [hm]
    | blank => simp [definesOf, stepLine]
    | comment => simp [definesOf, stepLine]
    | directive k => simp [definesOf, stepLine]
    | text => simp [definesOf, stepLine]

/-- Lines whose definitions are all already in effect change nothing. -/
theorem includeLines_fixed (ls : List Line) (st : PPState)
    (hs : ∀ l ∈ ls, l.silent = true)
    (hd : ∀ p ∈ definesOf ls, st.macros.find p.1 = some p.2) :
    includeLines ls st = st := by
  induction ls with
  | nil => rfl
  | cons l ls ih =>
    have hs1 : ∀ l1 ∈ ls, l1.silent = true := fun l1 h1 => hs l1 (List.mem_cons_of_mem _ h1)
    have hl : l.silent = true := hs l (List.mem_cons_self _ _)
    rw [includeLines_cons]
    cases l with
    | define n d =>
      have hn : st.macros.find n = some d := hd (n, d) (by simp [definesOf])
      have hd1 : ∀ p ∈ definesOf ls, st.macros.find p.1 = some p.2 :=
        fun p hp => hd p (by simp [definesOf, hp])
      simp only [stepLine, defineMacro_same n d st hn]
      exact ih hs1 hd1
    | blank => exact ih hs1 (fun p hp => hd p (by simpa [definesOf] using hp))
    | comment => exact ih hs1 (fun p hp => hd p (by simpa [definesOf] using hp))
    | directive k => simp [Line.silent] at hl
    | text => simp [Line.silent] at hl

/-- Reading the same lines a second time changes nothing, when the lines are
silent and give no name two different definitions. -/
theorem includeLines_twice (ls : List Line) (st : PPState)
    (hs : ∀ l ∈ ls, l.silent = true)
    (hc : ∀ p ∈ definesOf ls, lastBinding (definesOf ls) p.1 = some p.2) :
    includeLines ls (includeLines ls st) = includeLines ls st := by
  apply includeLines_fixed ls _ hs
  intro p hp
  rw [includeLines_find, hc p hp]

theorem headerLines_silent : ∀ l ∈ headerLines, l.silent = true := by
  decide

theorem headerDefines_consistent :
    ∀ p ∈ definesOf headerLines, lastBinding (definesOf headerLines) p.1 = some p.2 := by
  decide

/-- Whatever was defined before, each name of the header ends up with the
definition the header gives it. -/
theorem includeHeader_find (st : PPState) (p : String × MacroDef) (hp : p ∈ headerDefines) :
    (includeHeader st).macros.find p.1 = some p.2 := by
  unfold includeHeader
  rw [includeLines_find, headerDefines_consistent p hp]

theorem config_eq : config = headerDefines := by
  decide

/-! ## The claims -/

/-- C1: the header defines exactly the scenario configuration. The one driver
selector is `ST7789_DRIVER`; width 135, height 240; MOSI 23, SCLK 18, CS 15,
DC 2, RST 4, BL 32; SPI frequency 40000000. Hence the framebuffer addressed is
135 by 240 pixels and the bus clock configured is at most 40,000,000 Hz. -/
theorem scenario_configuration :
    headerNames.filter isDriverSelector = ["ST7789_DRIVER"] ∧
    config.find "ST7789_DRIVER" = some ⟨none, []⟩ ∧
    TFT_WIDTH = some 135 ∧ TFT_HEIGHT = some 240 ∧
    TFT_MOSI = some 23 ∧ TFT_SCLK = some 18 ∧ TFT_CS = some 15 ∧
    TFT_DC = some 2 ∧ TFT_RST = some 4 ∧ TFT_BL = some 32 ∧
    SPI_FREQUENCY = some 40000000 ∧
    framebuffer = some (135, 240) ∧
    (∃ f : Int, SPI_FREQUENCY = some f ∧ f ≤ 40000000) := by
  refine ⟨by decide, by decide, by decide, by decide, by decide, by decide, by decide,
    by decide, by decide, by decide, by decide, by decide, 40000000, by decide, by decide⟩

/-- C2: the six pin macros `TFT_MOSI`, `TFT_SCLK`, `TFT_CS`, `TFT_DC`, `TFT_RST`
and `TFT_BL` all have a value, and any two different pin names have different
values. -/
theorem pins_mutually_distinct :
    pinNames.map (macroValue config) =
      [some 23, some 18, some 15, some 2, some 4, some 32] ∧
    (∀ p ∈ pinNames, ∀ q ∈ pinNames, p ≠ q → macroValue config p ≠ macroValue config q) ∧
    List.Pairwise (fun a b => a ≠ b) [TFT_MOSI, TFT_SCLK, TFT_CS, TFT_DC, TFT_RST, TFT_BL] := by
  refine ⟨by decide, by decide, by decide⟩

/-- C3: every pin macro of the header has a non-negative integer value inside
the pin range of the ESP32 (GPIO 0 to 39); the value is at most 33, so it is
not one of the input-only pins 34 to 39 and names an output-capable pin. -/
theorem pins_valid_output (p : String) (hp : p ∈ pinNames) :
    ∃ v : Int, macroValue config p = some v ∧ 0 ≤ v ∧ v ≤ 33 ∧
      esp32Gpio v = true ∧ esp32InputOnly v = false ∧ esp32OutputCapable v = true := by
  simp only [pinNames, List.mem_cons, List.mem_singleton, List.not_mem_nil, or_false] at hp
  rcases hp with rfl | rfl | rfl | rfl | rfl | rfl
  · exact ⟨23, by decide, by decide, by decide, by decide, by decide, by decide⟩
  · exact ⟨18, by decide, by decide, by decide, by decide, by decide, by decide⟩
  · exact ⟨15, by decide, by decide, by decide, by decide, by decide, by decide⟩
  · exact ⟨2, by decide, by decide, by decide, by decide, by decide, by decide⟩
  · exact ⟨4, by decide, by decide, by decide, by decide, by decide, by decide⟩
  · exact ⟨32, by decide, by decide, by decide, by decide, by decide, by decide⟩

/-- Witness of C3 at the backlight pin, the largest of the six values. -/
theorem pins_valid_output_witness :
    "TFT_BL" ∈ pinNames ∧
    ∃ v : Int, macroValue config "TFT_BL" = some v ∧ 0 ≤ v ∧ v ≤ 33 ∧
      esp32Gpio v = true ∧ esp32InputOnly v = false ∧ esp32OutputCapable v = true :=
  ⟨by decide, pins_valid_output "TFT_BL" (by decide)⟩

/-- C4: including the header is idempotent. From any starting state, including
it twice leaves the same defined names and values as including it once, and the
second pass reports no redefinition: every definition it meets is identical to
the one in effect. -/
theorem include_twice (st : PPState) :
    includeHeader (includeHeader st) = includeHeader st :=
  includeLines_twice headerLines st headerLines_silent headerDefines_consistent

/-- C5: of the font flags of the driver library, the header defines exactly
`LOAD_FONT2`, `LOAD_FONT4`, `LOAD_FONT6`, `LOAD_FONT7` and `LOAD_GFXFF`, each as
an empty flag; `LOAD_GLCD`, `LOAD_FONT8`, `LOAD_FONT8N` and `SMOOTH_FONT` are
not defined by it. -/
theorem enabled_fonts :
    headerNames.filter (fun n => fontFlags.contains n) =
      ["LOAD_FONT2", "LOAD_FONT4", "LOAD_FONT6", "LOAD_FONT7", "LOAD_GFXFF"] ∧
    fontFlags.filter (isDefined config) =
      ["LOAD_FONT2", "LOAD_FONT4", "LOAD_FONT6", "LOAD_FONT7", "LOAD_GFXFF"] ∧
    (∀ n ∈ ["LOAD_FONT2", "LOAD_FONT4", "LOAD_FONT6", "LOAD_FONT7", "LOAD_GFXFF"],
      config.find n = some ⟨none, []⟩) ∧
    (∀ n ∈ ["LOAD_GLCD", "LOAD_FONT8", "LOAD_FONT8N", "SMOOTH_FONT"],
      n ∉ headerNames ∧ isDefined config n = false) := by
  refine ⟨by decide, by decide, by decide, by decide⟩

/-- C7: the header has no logic. Every line is blank, a comment, or the
`#define` of an object-like macro: there is no other directive (`#if`, `#ifdef`,
`#ifndef`, `#else`, `#undef`, `#include`) and no function-like macro, and every
replacement list is empty or integer constants. So the names the header defines
and their values after inclusion are the same whatever was defined before. -/
theorem header_is_plain_data :
    (∀ l ∈ headerLines, l.plainData = true) ∧
    (∀ l ∈ headerLines, ∀ k : String, l ≠ Line.directive k) ∧
    (∀ l ∈ headerLines, l ≠ Line.text) ∧
    (∀ p ∈ headerDefines, p.2.params = none ∧ ∀ tok ∈ p.2.body, (intConstant tok).isSome = true) ∧
    (∀ st : PPState, ∀ p ∈ headerDefines, (includeHeader st).macros.find p.1 = some p.2) ∧
    (∀ st1 st2 : PPState, ∀ n ∈ headerNames,
      (includeHeader st1).macros.find n = (includeHeader st2).macros.find n) := by
  refine ⟨by decide, ?_, by decide, by decide, fun st p hp => includeHeader_find st p hp, ?_⟩
  · intro l hl k hk
    subst hk
    have h := headerLines_silent _ hl
    simp [Line.silent] at h
  · intro st1 st2 n hn
    obtain ⟨p, hp, rfl⟩ := List.mem_map.mp hn
    rw [includeHeader_find st1 p hp, includeHeader_find st2 p hp]

/-- C8: the panel dimensions are positive, in portrait orientation (width at
most height) and inside the 240 by 320 display RAM of the ST7789, so every pixel
coordinate of the panel is addressable; the panel has 32400 pixels. -/
theorem panel_dimensions :
    ∃ w h : Int, TFT_WIDTH = some w ∧ TFT_HEIGHT = some h ∧
      0 < w ∧ 0 < h ∧ w ≤ h ∧ w ≤ 240 ∧ h ≤ 320 ∧
      (∀ x y : Int, 0 ≤ x → x < w → 0 ≤ y → y < h → st7789Addressable x y = true) ∧
      w * h = 32400 := by
  refine ⟨135, 240, by decide, by decide, by decide, by decide, by decide, by decide,
    by decide, ?_, by decide⟩
  intro x y hx0 hx hy0 hy
  have h1 : x < 240 := by omega
  have h2 : y < 320 := by omega
  simp [st7789Addressable, hx0, hy0, h1, h2]

/-- C9: the header is a well-formed finite map. It defines fifteen names, each
exactly once; exactly one of them is a controller driver selector; no name is
given two different values, and including the header into an empty environment
reports no redefinition. -/
theorem header_is_finite_map :
    headerNames =
      ["ST7789_DRIVER", "TFT_WIDTH", "TFT_HEIGHT", "TFT_MOSI", "TFT_SCLK", "TFT_CS",
       "TFT_DC", "TFT_RST", "TFT_BL", "SPI_FREQUENCY", "LOAD_FONT2", "LOAD_FONT4",
       "LOAD_FONT6", "LOAD_FONT7", "LOAD_GFXFF"] ∧
    headerNames.length = 15 ∧
    headerNames.Nodup ∧
    (∀ n ∈ headerNames, headerNames.count n = 1) ∧
    (headerNames.filter isDriverSelector).length = 1 ∧
    (∀ p ∈ headerDefines, ∀ q ∈ headerDefines, p.1 = q.1 → p.2 = q.2) ∧
    (includeHeader PPState.initial).macros = headerDefines ∧
    (includeHeader PPState.initial).diagnostics = [] := by
  refine ⟨by decide, by decide, by decide, by decide, by decide, by decide, by decide,
    by decide⟩

end IdeasparkSetup
